import Mathlib

/-!
Verification of the spoilboard hole-placement pipeline
(parametric-spoilboard, `Spoilboard.py`).

The source computes, from a static configuration, a hole layout for a CNC
spoilboard sheet: a sparse quadrant hole list is expanded by symmetry
(lines 388-392), deduplicated (395-405), translated into the sheet frame
(408-410), filtered against an edge keep-out (413-417), and a zero point is
selected (421, 433-454).  Depth arithmetic lives at lines 362-367 and the
parameter validation asserts at lines 377-385.

Coordinates and dimensions are modelled as rationals.  The source evaluates
the tangent of half an angle via `math.tan(angle/2 * pi/180)`; here that
value is passed in explicitly as a `tanHalf : ℚ` argument, so that formulas
stay exact and executable (for the 90-degree configurations of interest,
`tan 45 = 1`).
-/

/-- A hole entry `[X, Y, mount]` of the `holes` list (lines 170-198):
centre coordinates in millimetres and a flag marking mounting holes. -/
structure Hole where
  x : ℚ
  y : ℚ
  mount : Bool
deriving DecidableEq, Repr

/-- X-mirrored copy of a hole, `[bedXdimension - elem[0], elem[1], elem[2]]`
(line 389). -/
def mirrorX (bedXdimension : ℚ) (h : Hole) : Hole :=
  ⟨bedXdimension - h.x, h.y, h.mount⟩

/-- Y-mirrored copy of a hole, `[elem[0], bedYdimension - elem[1], elem[2]]`
(line 392). -/
def mirrorY (bedYdimension : ℚ) (h : Hole) : Hole :=
  ⟨h.x, bedYdimension - h.y, h.mount⟩

/-- Symmetry expansion (lines 388-392): when `boardXsymmetrical`, the list of
X-mirrored copies is appended to the list; when `boardYsymmetrical`, the list
of Y-mirrored copies of the possibly-already-expanded list is appended. -/
def symmetryExpand (boardXsymmetrical boardYsymmetrical : Bool)
    (bedXdimension bedYdimension : ℚ) (hs : List Hole) : List Hole :=
  let h1 := if boardXsymmetrical then hs ++ hs.map (mirrorX bedXdimension) else hs
  if boardYsymmetrical then h1 ++ h1.map (mirrorY bedYdimension) else h1

/-- Worker for `remove_duplicate_holes` (lines 395-404): walk the list keeping
a `seen` set (here a list, membership tested by full `(x, y, mount)` equality,
matching `tuple(hole)` hashing) and keep the first occurrence of each hole. -/
def removeDupAux (seen : List Hole) : List Hole → List Hole
  | [] => []
  | h :: rest =>
    if h ∈ seen then removeDupAux seen rest
    else h :: removeDupAux (h :: seen) rest

/-- `remove_duplicate_holes` (lines 395-405): drop repeated holes, keeping the
first occurrence; the key is the whole `(x, y, mount)` tuple. -/
def remove_duplicate_holes (hs : List Hole) : List Hole :=
  removeDupAux [] hs

/-- Frame transform (line 410): realign holes to the spoilboard system of
coordinates by subtracting the corner shift. -/
def frameTransform (spoilboardXShift spoilboardYShift : ℚ) (hs : List Hole) :
    List Hole :=
  hs.map fun h => ⟨h.x - spoilboardXShift, h.y - spoilboardYShift, h.mount⟩

/-- `realKeepout = spoilboardEdgeKeepOut + holeDiameter/2` (line 413). -/
def realKeepout (spoilboardEdgeKeepOut holeDiameter : ℚ) : ℚ :=
  spoilboardEdgeKeepOut + holeDiameter / 2

/-- `spoilboardHoleCheck` (lines 414-415): a hole survives the edge filter iff
`realKeepout ≤ x`, `realKeepout ≤ y`, `x ≤ sheetX - realKeepout` and
`y ≤ sheetY - realKeepout`. -/
def spoilboardHoleCheck (spoilboardSheetXdimenstion spoilboardSheetYdimenstion
    kq : ℚ) (hole : Hole) : Bool :=
  decide (hole.x ≥ kq) && decide (hole.y ≥ kq) &&
    decide (hole.x ≤ spoilboardSheetXdimenstion - kq) &&
    decide (hole.y ≤ spoilboardSheetYdimenstion - kq)

/-- Edge filter (line 417): keep exactly the holes passing
`spoilboardHoleCheck`, preserving order. -/
def edgeFilter (spoilboardSheetXdimenstion spoilboardSheetYdimenstion kq : ℚ)
    (hs : List Hole) : List Hole :=
  hs.filter (spoilboardHoleCheck spoilboardSheetXdimenstion spoilboardSheetYdimenstion kq)

/-- One iteration of the first-pass zero-point loop (lines 434-441): a hole on
the left half (`x ≤ sheetX/2`) replaces the running candidate unless its x is
smaller than the candidate's or its y larger than the candidate's. -/
def firstPassStep (halfX : ℚ) (c h : Hole) : Hole :=
  if h.x > halfX then c
  else if h.x < c.x then c
  else if h.y > c.y then c
  else h

/-- First-pass zero point in two-pass-milling mode (lines 433-441): fold the
step over the filtered holes starting from the sentinel
`[0, spoilboardSheetYdimenstion, False]`. -/
def firstPassZero (spoilboardSheetXdimenstion spoilboardSheetYdimenstion : ℚ)
    (hs : List Hole) : Hole :=
  hs.foldl (firstPassStep (spoilboardSheetXdimenstion / 2))
    ⟨0, spoilboardSheetYdimenstion, false⟩

/-- One iteration of the second-pass zero-point loop (lines 443-451): a hole on
the right half (`x > sheetX/2`) replaces the running candidate unless its x is
larger than the candidate's or its y smaller than the candidate's. -/
def secondPassStep (halfX : ℚ) (c h : Hole) : Hole :=
  if h.x ≤ halfX then c
  else if h.x > c.x then c
  else if h.y < c.y then c
  else h

/-- Second-pass zero mark in two-pass-milling mode (lines 443-451): fold the
step over the filtered holes starting from the sentinel
`[spoilboardSheetXdimenstion, 0, False]`. -/
def secondPassZero (spoilboardSheetXdimenstion : ℚ) (hs : List Hole) : Hole :=
  hs.foldl (secondPassStep (spoilboardSheetXdimenstion / 2))
    ⟨spoilboardSheetXdimenstion, 0, false⟩

/-- Two-pass hole split (line 453): keep only holes with `x ≤ sheetX/2` for
the first pass. -/
def twoPassFilter (spoilboardSheetXdimenstion : ℚ) (hs : List Hole) : List Hole :=
  hs.filter fun h => decide (h.x ≤ spoilboardSheetXdimenstion / 2)

/-- Truncated sheet X dimension in two-pass mode (line 454):
`secondPassCenterPoint[0] + realKeepout`. -/
def emittedSheetX (spoilboardSheetXdimenstion kq : ℚ) (hs : List Hole) : ℚ :=
  (secondPassZero spoilboardSheetXdimenstion hs).x + kq

/-- `holeTipDepth` (line 362): `0` for a flat bit (tip angle 0 or 180), else
`holeDiameter / tan(angle/2) / 2`; `tanHalf` stands for
`math.tan(millBitPointAngle/2 * pi/180)`. -/
def holeTipDepth (millBitPointAngle holeDiameter tanHalf : ℚ) : ℚ :=
  if millBitPointAngle = 0 ∨ millBitPointAngle = 180 then 0
  else holeDiameter / tanHalf / 2

/-- `throughHoleStockClearance` (line 363):
`throughHoleToolClearance + holeTipDepth` when ensuring through holes, else 0. -/
def throughHoleStockClearance (ensureThroughHoles : Bool)
    (throughHoleToolClearance tip : ℚ) : ℚ :=
  if ensureThroughHoles then throughHoleToolClearance + tip else 0

/-- `additionalStock` (line 364): `throughHoleStockClearance` plus
`cncBedClearance` when ensuring through holes. -/
def additionalStock (ensureThroughHoles : Bool)
    (throughHoleToolClearance tip cncBedClearance : ℚ) : ℚ :=
  throughHoleStockClearance ensureThroughHoles throughHoleToolClearance tip +
    (if ensureThroughHoles then cncBedClearance else 0)

/-- `holeMaxDepth` (line 367): `stockThickness + (additionalStock if
ensureThroughHoles else 0) - cncBedClearance`. -/
def holeMaxDepth (ensureThroughHoles : Bool)
    (stockThickness throughHoleToolClearance tip cncBedClearance : ℚ) : ℚ :=
  stockThickness +
    (if ensureThroughHoles then
      additionalStock ensureThroughHoles throughHoleToolClearance tip cncBedClearance
     else 0) - cncBedClearance

/-- `requiredCounterSunkDepth` (line 384), exactly as written in the source:
`(screwHeadWidth - holeDiameter)/2/ math.tan(screwCountersunkAngle/2 ...)/2`,
with the trailing division by 2 included; `tanHalf` stands for
`math.tan(screwCountersunkAngle/2 * pi/180)`. -/
def requiredCounterSunkDepth (screwHeadWidth holeDiameter tanHalf : ℚ) : ℚ :=
  (screwHeadWidth - holeDiameter) / 2 / tanHalf / 2

/-- Countersink part of the parameter validator (lines 380-385): the three
asserts, in source order, as a fail-fast computation returning the first
violated assert's message. -/
def validateCountersink (validateCountersunkDepth ensureThroughHoles : Bool)
    (screwCountersunkDepth screwCountersunkAngle screwHeadWidth holeDiameter
     holeMaxD tanHalf : ℚ) : Except String Unit :=
  if validateCountersunkDepth ∧ 0 < screwCountersunkDepth then
    if ¬ (ensureThroughHoles ∨ screwCountersunkDepth ≤ holeMaxD) then
      Except.error "max hole depth is not deep enough for countrsunk"
    else if ¬ (0 ≤ screwCountersunkAngle ∧ screwCountersunkAngle ≤ 180) then
      Except.error "screwCountersunkAngle is out of range"
    else if 0 < screwCountersunkAngle then
      if requiredCounterSunkDepth screwHeadWidth holeDiameter tanHalf ≤
          screwCountersunkDepth then
        Except.ok ()
      else Except.error "countersunk is too shallow for this angle"
    else Except.ok ()
  else Except.ok ()

/-- Filtered hole list reaching the zero-point selection (lines 388-417 in
sequence): symmetry expansion, deduplication, frame transform, edge filter. -/
def filteredHoles (boardXsymmetrical boardYsymmetrical : Bool)
    (bedXdimension bedYdimension spoilboardXShift spoilboardYShift
     spoilboardSheetXdimenstion spoilboardSheetYdimenstion
     spoilboardEdgeKeepOut holeDiameter : ℚ) (hs : List Hole) : List Hole :=
  edgeFilter spoilboardSheetXdimenstion spoilboardSheetYdimenstion
    (realKeepout spoilboardEdgeKeepOut holeDiameter)
    (frameTransform spoilboardXShift spoilboardYShift
      (remove_duplicate_holes
        (symmetryExpand boardXsymmetrical boardYsymmetrical
          bedXdimension bedYdimension hs)))

/-- Single-pass run up to zero-point selection: line 421 reads
`spoilboardHoles[0]` unconditionally, which raises `IndexError` on an empty
filtered list; the exception is only caught by the top-level handler (lines
519-521), so no geometry is emitted.  Modelled as `Except`: the error value
carries Python's message and no output accompanies it. -/
def runSinglePass (boardXsymmetrical boardYsymmetrical : Bool)
    (bedXdimension bedYdimension spoilboardXShift spoilboardYShift
     spoilboardSheetXdimenstion spoilboardSheetYdimenstion
     spoilboardEdgeKeepOut holeDiameter : ℚ) (hs : List Hole) :
    Except String (Hole × List Hole) :=
  match filteredHoles boardXsymmetrical boardYsymmetrical
      bedXdimension bedYdimension spoilboardXShift spoilboardYShift
      spoilboardSheetXdimenstion spoilboardSheetYdimenstion
      spoilboardEdgeKeepOut holeDiameter hs with
  | [] => Except.error "list index out of range"
  | c :: rest => Except.ok (c, c :: rest)

/-- Modelled from the spec: `requiredDepth = (headWidth − holeDiameter) / 2 /
tan(angle/2 in appropriate units)` — the minimum depth required to fully sink
a screw head of given width above a hole of given diameter (spec section 4.1,
Scenario C); stated here to be compared with the source's
`requiredCounterSunkDepth`. -/
def specRequiredCounterSunkDepth (screwHeadWidth holeDiameter tanHalf : ℚ) : ℚ :=
  (screwHeadWidth - holeDiameter) / 2 / tanHalf

theorem mem_removeDupAux (l : List Hole) : ∀ (seen : List Hole) (x : Hole),
    x ∈ removeDupAux seen l ↔ x ∈ l ∧ x ∉ seen := by
  induction l with
  | nil => intro seen x; simp [removeDupAux]
  | cons h t ih =>
    intro seen x
    rw [removeDupAux]
    by_cases hh : h ∈ seen
    · rw [if_pos hh, ih]
      constructor
      · rintro ⟨hx, hn⟩
        exact ⟨List.mem_cons_of_mem _ hx, hn⟩
      · rintro ⟨hx, hn⟩
        rcases List.mem_cons.mp hx with rfl | hx
        · exact absurd hh hn
        · exact ⟨hx, hn⟩
    · rw [if_neg hh]
      constructor
      · intro hx
        rcases List.mem_cons.mp hx with rfl | hx
        · exact ⟨List.mem_cons_self _ _, hh⟩
        · rcases (ih _ _).mp hx with ⟨hxt, hns⟩
          exact ⟨List.mem_cons_of_mem _ hxt,
            fun hxs => hns (List.mem_cons_of_mem _ hxs)⟩
      · rintro ⟨hx, hn⟩
        rcases List.mem_cons.mp hx with rfl | hx
        · exact List.mem_cons_self _ _
        · by_cases hxh : x = h
          · subst hxh; exact List.mem_cons_self _ _
          · refine List.mem_cons_of_mem _ ((ih _ _).mpr ⟨hx, ?_⟩)
            intro hm
            rcases List.mem_cons.mp hm with hm1 | hm2
            · exact hxh hm1
            · exact hn hm2

theorem removeDupAux_sublist (l : List Hole) :
    ∀ seen, List.Sublist (removeDupAux seen l) l := by
  induction l with
  | nil => intro seen; simp [removeDupAux]
  | cons h t ih =>
    intro seen
    rw [removeDupAux]
    by_cases hh : h ∈ seen
    · rw [if_pos hh]; exact (ih seen).cons h
    · rw [if_neg hh]; exact (ih (h :: seen)).cons₂ h

theorem removeDupAux_nodup (l : List Hole) : ∀ seen, (removeDupAux seen l).Nodup := by
  induction l with
  | nil => intro seen; simp [removeDupAux]
  | cons h t ih =>
    intro seen
    rw [removeDupAux]
    by_cases hh : h ∈ seen
    · rw [if_pos hh]; exact ih seen
    · rw [if_neg hh]
      refine List.nodup_cons.mpr ⟨?_, ih _⟩
      intro hmem
      exact ((mem_removeDupAux t (h :: seen) h).mp hmem).2 (List.mem_cons_self _ _)

theorem firstPassStep_eq_or (halfX : ℚ) (c h : Hole) :
    firstPassStep halfX c h = c ∨ (firstPassStep halfX c h = h ∧ h.x ≤ halfX) := by
  unfold firstPassStep
  by_cases h1 : h.x > halfX
  · rw [if_pos h1]; exact Or.inl rfl
  · rw [if_neg h1]
    by_cases h2 : h.x < c.x
    · rw [if_pos h2]; exact Or.inl rfl
    · rw [if_neg h2]
      by_cases h3 : h.y > c.y
      · rw [if_pos h3]; exact Or.inl rfl
      · rw [if_neg h3]; exact Or.inr ⟨rfl, not_lt.mp h1⟩

theorem secondPassStep_eq_or (halfX : ℚ) (c h : Hole) :
    secondPassStep halfX c h = c ∨ (secondPassStep halfX c h = h ∧ halfX < h.x) := by
  unfold secondPassStep
  by_cases h1 : h.x ≤ halfX
  · rw [if_pos h1]; exact Or.inl rfl
  · rw [if_neg h1]
    by_cases h2 : h.x > c.x
    · rw [if_pos h2]; exact Or.inl rfl
    · rw [if_neg h2]
      by_cases h3 : h.y < c.y
      · rw [if_pos h3]; exact Or.inl rfl
      · rw [if_neg h3]; exact Or.inr ⟨rfl, not_le.mp h1⟩

theorem foldl_firstPassStep_sound (halfX : ℚ) (l : List Hole) : ∀ c,
    l.foldl (firstPassStep halfX) c = c ∨
      (l.foldl (firstPassStep halfX) c ∈ l ∧
        (l.foldl (firstPassStep halfX) c).x ≤ halfX) := by
  induction l with
  | nil => intro c; exact Or.inl rfl
  | cons h t ih =>
    intro c
    rw [List.foldl_cons]
    rcases ih (firstPassStep halfX c h) with heq | ⟨hmem, hx⟩
    · rcases firstPassStep_eq_or halfX c h with hc | ⟨hh, hhx⟩
      · rw [heq, hc]; exact Or.inl rfl
      · rw [heq, hh]; exact Or.inr ⟨List.mem_cons_self _ _, hhx⟩
    · exact Or.inr ⟨List.mem_cons_of_mem _ hmem, hx⟩

theorem foldl_secondPassStep_sound (halfX : ℚ) (l : List Hole) : ∀ c,
    l.foldl (secondPassStep halfX) c = c ∨
      (l.foldl (secondPassStep halfX) c ∈ l ∧
        halfX < (l.foldl (secondPassStep halfX) c).x) := by
  induction l with
  | nil => intro c; exact Or.inl rfl
  | cons h t ih =>
    intro c
    rw [List.foldl_cons]
    rcases ih (secondPassStep halfX c h) with heq | ⟨hmem, hx⟩
    · rcases secondPassStep_eq_or halfX c h with hc | ⟨hh, hhx⟩
      · rw [heq, hc]; exact Or.inl rfl
      · rw [heq, hh]; exact Or.inr ⟨List.mem_cons_self _ _, hhx⟩
    · exact Or.inr ⟨List.mem_cons_of_mem _ hmem, hx⟩

theorem firstPassStep_mono (halfX : ℚ) (c h : Hole) :
    c.x ≤ (firstPassStep halfX c h).x ∧ (firstPassStep halfX c h).y ≤ c.y := by
  unfold firstPassStep
  by_cases h1 : h.x > halfX
  · rw [if_pos h1]; exact ⟨le_refl _, le_refl _⟩
  · rw [if_neg h1]
    by_cases h2 : h.x < c.x
    · rw [if_pos h2]; exact ⟨le_refl _, le_refl _⟩
    · rw [if_neg h2]
      by_cases h3 : h.y > c.y
      · rw [if_pos h3]; exact ⟨le_refl _, le_refl _⟩
      · rw [if_neg h3]; exact ⟨not_lt.mp h2, not_lt.mp h3⟩

theorem secondPassStep_mono (halfX : ℚ) (c h : Hole) :
    (secondPassStep halfX c h).x ≤ c.x ∧ c.y ≤ (secondPassStep halfX c h).y := by
  unfold secondPassStep
  by_cases h1 : h.x ≤ halfX
  · rw [if_pos h1]; exact ⟨le_refl _, le_refl _⟩
  · rw [if_neg h1]
    by_cases h2 : h.x > c.x
    · rw [if_pos h2]; exact ⟨le_refl _, le_refl _⟩
    · rw [if_neg h2]
      by_cases h3 : h.y < c.y
      · rw [if_pos h3]; exact ⟨le_refl _, le_refl _⟩
      · rw [if_neg h3]; exact ⟨not_lt.mp h2, not_lt.mp h3⟩

theorem foldl_firstPassStep_mono (halfX : ℚ) (l : List Hole) : ∀ c,
    c.x ≤ (l.foldl (firstPassStep halfX) c).x ∧
      (l.foldl (firstPassStep halfX) c).y ≤ c.y := by
  induction l with
  | nil => intro c; exact ⟨le_refl _, le_refl _⟩
  | cons h t ih =>
    intro c
    rw [List.foldl_cons]
    rcases ih (firstPassStep halfX c h) with ⟨hx, hy⟩
    rcases firstPassStep_mono halfX c h with ⟨hx2, hy2⟩
    exact ⟨le_trans hx2 hx, le_trans hy hy2⟩

theorem foldl_secondPassStep_mono (halfX : ℚ) (l : List Hole) : ∀ c,
    (l.foldl (secondPassStep halfX) c).x ≤ c.x ∧
      c.y ≤ (l.foldl (secondPassStep halfX) c).y := by
  induction l with
  | nil => intro c; exact ⟨le_refl _, le_refl _⟩
  | cons h t ih =>
    intro c
    rw [List.foldl_cons]
    rcases ih (secondPassStep halfX c h) with ⟨hx, hy⟩
    rcases secondPassStep_mono halfX c h with ⟨hx2, hy2⟩
    exact ⟨le_trans hx hx2, le_trans hy2 hy⟩

/-- C5: the Symmetry Expander appends, when X-symmetric, a mirrored copy
(x mapped to bedX − x, same y and flag) of every hole, then, when
Y-symmetric, a mirrored copy (y mapped to bedY − y) of every hole of the
possibly-already-expanded set; original entries precede their mirror images
(the input is a prefix of the expansion); deduplication keeps the first
occurrence of each `(x, y, flag)` triple, so membership is preserved and the
output is a subsequence (first-seen order) of the expansion; there is no
error case and an empty input yields an empty output. -/
theorem C5_symmetry_expander (boardXsymmetrical boardYsymmetrical : Bool)
    (bedX bedY : ℚ) (hs : List Hole) :
    (∃ t, symmetryExpand boardXsymmetrical boardYsymmetrical bedX bedY hs = hs ++ t) ∧
    (boardXsymmetrical = true → ∀ h ∈ hs,
      mirrorX bedX h ∈ symmetryExpand boardXsymmetrical boardYsymmetrical bedX bedY hs) ∧
    (boardYsymmetrical = true → ∀ h ∈ hs,
      mirrorY bedY h ∈ symmetryExpand boardXsymmetrical boardYsymmetrical bedX bedY hs) ∧
    (boardXsymmetrical = true → boardYsymmetrical = true → ∀ h ∈ hs,
      mirrorY bedY (mirrorX bedX h) ∈
        symmetryExpand boardXsymmetrical boardYsymmetrical bedX bedY hs) ∧
    (∀ x, x ∈ remove_duplicate_holes
        (symmetryExpand boardXsymmetrical boardYsymmetrical bedX bedY hs) ↔
      x ∈ symmetryExpand boardXsymmetrical boardYsymmetrical bedX bedY hs) ∧
    List.Sublist
      (remove_duplicate_holes
        (symmetryExpand boardXsymmetrical boardYsymmetrical bedX bedY hs))
      (symmetryExpand boardXsymmetrical boardYsymmetrical bedX bedY hs) ∧
    remove_duplicate_holes
      (symmetryExpand boardXsymmetrical boardYsymmetrical bedX bedY []) = [] := by
  refine ⟨?_, ?_, ?_, ?_, ?_, ?_, ?_⟩
  · unfold symmetryExpand
    cases boardXsymmetrical <;> cases boardYsymmetrical
    · exact ⟨[], by simp⟩
    · exact ⟨hs.map (mirrorY bedY), by simp⟩
    · exact ⟨hs.map (mirrorX bedX), by simp⟩
    · exact ⟨hs.map (mirrorX bedX) ++ (hs ++ hs.map (mirrorX bedX)).map (mirrorY bedY),
        by simp⟩
  · intro hX h hmem
    subst hX
    have hmx : mirrorX bedX h ∈ hs ++ hs.map (mirrorX bedX) :=
      List.mem_append_right _ (List.mem_map_of_mem _ hmem)
    unfold symmetryExpand
    cases boardYsymmetrical
    · exact hmx
    · exact List.mem_append_left _ hmx
  · intro hY h hmem
    subst hY
    unfold symmetryExpand
    cases boardXsymmetrical
    · exact List.mem_append_right _ (List.mem_map_of_mem _ hmem)
    · exact List.mem_append_right _
        (List.mem_map_of_mem _ (List.mem_append_left _ hmem))
  · intro hX hY h hmem
    subst hX
    subst hY
    unfold symmetryExpand
    exact List.mem_append_right _
      (List.mem_map_of_mem _
        (List.mem_append_right _ (List.mem_map_of_mem _ hmem)))
  · intro x
    rw [remove_duplicate_holes, mem_removeDupAux]
    simp
  · exact removeDupAux_sublist _ []
  · cases boardXsymmetrical <;> cases boardYsymmetrical <;> rfl

/-- C5 witness: instantiating the expander theorem, the X-mirror of hole
`(20, 20)` on a 360-wide bed appears in the expansion of the singleton list. -/
theorem C5_witness :
    mirrorX 360 ⟨20, 20, true⟩ ∈ symmetryExpand true true 360 300 [⟨20, 20, true⟩] :=
  (C5_symmetry_expander true true 360 300 [⟨20, 20, true⟩]).2.1 rfl
    ⟨20, 20, true⟩ (List.mem_singleton.mpr rfl)

/-- C6 (amended): after deduplication no two output entries are equal as
`(x, y, flag)` triples — the output list has no duplicate entries; pairs
sharing `(x, y)` but differing in the mounting flag may both survive (see the
counterexample), since the dedup key is the whole tuple. -/
theorem C6_dedup_nodup (hs : List Hole) : (remove_duplicate_holes hs).Nodup :=
  removeDupAux_nodup hs []

/-- C6 counterexample: two holes at the same `(x, y)` with different mounting
flags both survive `remove_duplicate_holes`, refuting the claim that no two
distinct output holes share an exact `(x, y)` pair when their flags differ. -/
theorem C6_counterexample :
    (⟨0, 0, true⟩ : Hole) ∈ remove_duplicate_holes [⟨0, 0, true⟩, ⟨0, 0, false⟩] ∧
    (⟨0, 0, false⟩ : Hole) ∈ remove_duplicate_holes [⟨0, 0, true⟩, ⟨0, 0, false⟩] ∧
    (⟨0, 0, true⟩ : Hole) ≠ ⟨0, 0, false⟩ ∧
    Hole.x ⟨0, 0, true⟩ = Hole.x ⟨0, 0, false⟩ ∧
    Hole.y ⟨0, 0, true⟩ = Hole.y ⟨0, 0, false⟩ := by
  have heval : remove_duplicate_holes [⟨0, 0, true⟩, ⟨0, 0, false⟩] =
      [⟨0, 0, true⟩, ⟨0, 0, false⟩] := by
    simp [remove_duplicate_holes, removeDupAux, Hole.mk.injEq]
  rw [heval]
  refine ⟨by simp, by simp, by simp [Hole.mk.injEq], rfl, rfl⟩

/-- C2 counterexample: with sheet 100×100 and filtered holes
`[(10, 50), (20, 20)]`, both on the left half, the first-pass loop selects
`(20, 20)` although `(10, 50)` has strictly smaller x: the code greedily
prefers larger x (and smaller y), refuting the claimed minimal-x /
maximal-y selection rule. -/
theorem C2_counterexample :
    firstPassZero 100 100 [⟨10, 50, false⟩, ⟨20, 20, false⟩] = ⟨20, 20, false⟩ ∧
    (⟨10, 50, false⟩ : Hole) ∈ [(⟨10, 50, false⟩ : Hole), ⟨20, 20, false⟩] ∧
    (10 : ℚ) ≤ 100 / 2 ∧
    Hole.x ⟨10, 50, false⟩ < Hole.x ⟨20, 20, false⟩ := by
  refine ⟨?_, by simp, by norm_num, ?_⟩
  · norm_num [firstPassZero, firstPassStep]
  · show (10 : ℚ) < 20
    norm_num

/-- C2 (amended): the two-pass zero selection is an order-dependent greedy
scan, not the claimed two-key minimum/maximum: starting from the sentinel
`(0, sheetY)`, a hole replaces the first-pass candidate only when its x is at
most sheetX/2, at least the candidate's x, and its y at most the candidate's
y; dually for the second pass from `(sheetX, 0)`.  Hence the first-pass zero
is the sentinel or a left-half hole of the set, with x at least 0 and y at
most sheetY; the second-pass zero is the sentinel or a right-half hole, with
x at most sheetX and y at least 0. -/
theorem C2_greedy_zero_selector (sx sy : ℚ) (hs : List Hole) :
    (firstPassZero sx sy hs = ⟨0, sy, false⟩ ∨
      (firstPassZero sx sy hs ∈ hs ∧ (firstPassZero sx sy hs).x ≤ sx / 2)) ∧
    (0 ≤ (firstPassZero sx sy hs).x ∧ (firstPassZero sx sy hs).y ≤ sy) ∧
    (secondPassZero sx hs = ⟨sx, 0, false⟩ ∨
      (secondPassZero sx hs ∈ hs ∧ sx / 2 < (secondPassZero sx hs).x)) ∧
    ((secondPassZero sx hs).x ≤ sx ∧ 0 ≤ (secondPassZero sx hs).y) := by
  unfold firstPassZero secondPassZero
  exact ⟨foldl_firstPassStep_sound _ hs _,
    foldl_firstPassStep_mono _ hs _,
    foldl_secondPassStep_sound _ hs _,
    foldl_secondPassStep_mono _ hs _⟩

/-- C4: in two-pass mode the emitted sheet X-dimension is the second-pass
zero's x plus the effective keep-out, and every hole with `x > sheetX/2`
(measured against the original sheet X) is removed from the first-pass set;
on Scenario B (sheet X = 355, holes at x = 10 and x = 350) the first-pass
zero is the x = 10 hole, the second-pass zero the x = 350 hole, and the
emitted X-dimension is `350 + keepout`. -/
theorem C4_two_pass_split (sx kq : ℚ) (hs : List Hole) :
    (∀ h ∈ hs, sx / 2 < h.x → h ∉ twoPassFilter sx hs) ∧
    emittedSheetX sx kq hs = (secondPassZero sx hs).x + kq ∧
    firstPassZero 355 280 [⟨10, 20, false⟩, ⟨350, 20, false⟩] = ⟨10, 20, false⟩ ∧
    secondPassZero 355 [⟨10, 20, false⟩, ⟨350, 20, false⟩] = ⟨350, 20, false⟩ ∧
    emittedSheetX 355 kq [⟨10, 20, false⟩, ⟨350, 20, false⟩] = 350 + kq := by
  have hsec : secondPassZero 355 [⟨10, 20, false⟩, ⟨350, 20, false⟩] =
      ⟨350, 20, false⟩ := by
    norm_num [secondPassZero, secondPassStep]
  refine ⟨?_, rfl, by norm_num [firstPassZero, firstPassStep], hsec, ?_⟩
  · intro h _ hx hmem
    have hle := (List.mem_filter.mp hmem).2
    simp only [decide_eq_true_eq] at hle
    exact absurd hle (not_le.mpr hx)
  · unfold emittedSheetX
    rw [hsec]

/-- C4 witness: instantiating the two-pass theorem on Scenario B, the x = 350
hole is removed from the first-pass set and the emitted X-dimension for an
effective keep-out of 5 is 355. -/
theorem C4_witness :
    (⟨350, 20, false⟩ : Hole) ∉
      twoPassFilter 355 [⟨10, 20, false⟩, ⟨350, 20, false⟩] ∧
    emittedSheetX 355 5 [⟨10, 20, false⟩, ⟨350, 20, false⟩] = 355 := by
  refine ⟨(C4_two_pass_split 355 5 [⟨10, 20, false⟩, ⟨350, 20, false⟩]).1
      ⟨350, 20, false⟩ (by simp) (by norm_num), ?_⟩
  have h := (C4_two_pass_split 355 5 [⟨10, 20, false⟩, ⟨350, 20, false⟩]).2.2.2.2
  norm_num at h
  exact h

/-- C7: with effective keep-out `K = spoilboardEdgeKeepOut + holeDiameter/2`,
the edge filter keeps a hole iff `K ≤ x ≤ sheetX − K` and `K ≤ y ≤ sheetY −
K`; surviving holes keep their input order (the filtered list is a
subsequence of the input) and dropped holes cause no error; a hole exactly at
distance K from the left edge is retained (the other bounds holding) while
one at `K − ε` is dropped. -/
theorem C7_edge_filter (sx sy ko hd y ε : ℚ) (f : Bool) (hs : List Hole) (h : Hole) :
    (spoilboardHoleCheck sx sy (realKeepout ko hd) h = true ↔
      (realKeepout ko hd ≤ h.x ∧ h.x ≤ sx - realKeepout ko hd ∧
       realKeepout ko hd ≤ h.y ∧ h.y ≤ sy - realKeepout ko hd)) ∧
    List.Sublist (edgeFilter sx sy (realKeepout ko hd) hs) hs ∧
    (realKeepout ko hd ≤ sx - realKeepout ko hd → realKeepout ko hd ≤ y →
      y ≤ sy - realKeepout ko hd →
      spoilboardHoleCheck sx sy (realKeepout ko hd) ⟨realKeepout ko hd, y, f⟩ = true) ∧
    (0 < ε →
      spoilboardHoleCheck sx sy (realKeepout ko hd)
        ⟨realKeepout ko hd - ε, y, f⟩ = false) := by
  refine ⟨?_, List.filter_sublist _, ?_, ?_⟩
  · simp only [spoilboardHoleCheck, Bool.and_eq_true, decide_eq_true_eq, ge_iff_le]
    tauto
  · intro h1 h2 h3
    simp only [spoilboardHoleCheck, Bool.and_eq_true, decide_eq_true_eq, ge_iff_le]
    exact ⟨⟨⟨le_refl _, h2⟩, h1⟩, h3⟩
  · intro hε
    have hx : ¬ (realKeepout ko hd ≤ realKeepout ko hd - ε) := by linarith
    simp [spoilboardHoleCheck, ge_iff_le, hx]

/-- C7 witness: for a 100×100 sheet, keep-out 5 and hole diameter 8
(effective keep-out 9), a hole at x = 9 is retained and one at x = 8 is
dropped. -/
theorem C7_witness :
    spoilboardHoleCheck 100 100 (realKeepout 5 8) ⟨realKeepout 5 8, 50, false⟩ = true ∧
    spoilboardHoleCheck 100 100 (realKeepout 5 8)
      ⟨realKeepout 5 8 - 1, 50, false⟩ = false :=
  ⟨(C7_edge_filter 100 100 5 8 50 1 false [] ⟨0, 0, false⟩).2.2.1
      (by norm_num [realKeepout]) (by norm_num [realKeepout])
      (by norm_num [realKeepout]),
   (C7_edge_filter 100 100 5 8 50 1 false [] ⟨0, 0, false⟩).2.2.2 (by norm_num)⟩

/-- C8: the depth calculator computes `tipPenetrationDepth = 0` for a flat
bit (tip angle 0 or 180) and `diameter / (2·tan(angle/2))` otherwise;
`additionalStock = (throughToolClearance + tipPenetrationDepth) +
bedClearance` when ensuring through holes and 0 otherwise; and
`maxHoleDepth = (stockThickness + additionalStock) − bedClearance` when
ensuring through holes, else `stockThickness − bedClearance`. -/
theorem C8_depth_calculator (angle d tanHalf tc bed stock : ℚ) (ensure : Bool) :
    holeTipDepth angle d tanHalf =
      (if angle = 0 ∨ angle = 180 then 0 else d / (2 * tanHalf)) ∧
    additionalStock ensure tc (holeTipDepth angle d tanHalf) bed =
      (if ensure then (tc + holeTipDepth angle d tanHalf) + bed else 0) ∧
    holeMaxDepth ensure stock tc (holeTipDepth angle d tanHalf) bed =
      (if ensure then
        (stock + additionalStock ensure tc (holeTipDepth angle d tanHalf) bed) - bed
       else stock - bed) := by
  refine ⟨?_, ?_, ?_⟩
  · unfold holeTipDepth
    by_cases hA : angle = 0 ∨ angle = 180
    · rw [if_pos hA, if_pos hA]
    · rw [if_neg hA, if_neg hA, div_div, mul_comm]
  · cases ensure <;> simp [additionalStock, throughHoleStockClearance]
  · cases ensure <;> simp [holeMaxDepth, additionalStock, throughHoleStockClearance]

/-- C9: with non-negative clearances and tip penetration depth,
`maxHoleDepth` is non-increasing in `bedClearance` (in through-holes mode the
added bed clearance cancels exactly, otherwise the depth decreases with it),
and `additionalStock` with through-holes mode on is at least
`additionalStock` with it off. -/
theorem C9_depth_monotonicity (stock tc tip b1 b2 bed : ℚ) (ensure : Bool)
    (htc : 0 ≤ tc) (htip : 0 ≤ tip) (hbed : 0 ≤ bed) (h12 : b1 ≤ b2) :
    holeMaxDepth ensure stock tc tip b2 ≤ holeMaxDepth ensure stock tc tip b1 ∧
    additionalStock false tc tip bed ≤ additionalStock true tc tip bed := by
  constructor
  · cases ensure <;>
      simp only [holeMaxDepth, additionalStock, throughHoleStockClearance,
        if_true, if_false, Bool.false_eq_true, zero_add, add_zero] <;>
      linarith
  · simp only [additionalStock, throughHoleStockClearance, if_true, if_false,
      Bool.false_eq_true, zero_add, add_zero]
    linarith

/-- C9 witness: stock 25.4 mm, tool clearance 0.5, tip depth 4, bed
clearances 1 ≤ 2, through-holes mode on. -/
theorem C9_witness :
    holeMaxDepth true (127 / 5) (1 / 2) 4 2 ≤ holeMaxDepth true (127 / 5) (1 / 2) 4 1 ∧
    additionalStock false (1 / 2) 4 1 ≤ additionalStock true (1 / 2) 4 1 :=
  C9_depth_monotonicity (127 / 5) (1 / 2) 4 1 2 1 true (by norm_num) (by norm_num)
    (by norm_num) (by norm_num)

/-- C1: evaluation of the countersink depth check at Scenario C.  The source
(line 384) computes `requiredCounterSunkDepth = (headWidth −
holeDiameter)/2/tan(angle/2)/2`, with a trailing division by 2 that the spec
formula does not have; at angle 90° (tan 45° = 1), head width 12 and hole
diameter 7 it yields 1.25 instead of the geometric 2.5, so a configured
depth of 2.0 passes the check that the claim says must fail (3.5 passes as
claimed); in general the source value is exactly half the spec formula. -/
theorem C1_countersink_depth_check :
    requiredCounterSunkDepth 12 7 1 = 5 / 4 ∧
    specRequiredCounterSunkDepth 12 7 1 = 5 / 2 ∧
    (∀ w hd t : ℚ, requiredCounterSunkDepth w hd t =
      specRequiredCounterSunkDepth w hd t / 2) ∧
    validateCountersink true false 2 90 12 7 100 1 = Except.ok () ∧
    validateCountersink true false (7 / 2) 90 12 7 100 1 = Except.ok () := by
  refine ⟨by norm_num [requiredCounterSunkDepth],
    by norm_num [specRequiredCounterSunkDepth], fun w hd t => rfl, ?_, ?_⟩ <;>
    norm_num [validateCountersink, requiredCounterSunkDepth]

/-- C3 counterexample: with through-holes mode enabled (angle 90°, tan 45° =
1, head width 107, hole diameter 7, configured depth 3.5) the required depth
computed by the code is 25, exceeding the configured depth, and validation
fails anyway: through-holes mode does not bypass the required-depth check. -/
theorem C3_counterexample :
    validateCountersink true true (7 / 2) 90 107 7 10 1 =
      Except.error "countersunk is too shallow for this angle" := by
  norm_num [validateCountersink, requiredCounterSunkDepth]

/-- C3 (amended): with through-holes mode enabled the validator never fails
with the max-hole-depth (depth ceiling) message — only that check is
bypassed — while the required-countersink-depth check still applies:
whenever validation is on, the configured depth is positive, the angle is in
range with `0 < angle`, and the required depth as the code computes it
exceeds the configured depth, validation fails with the depth-insufficiency
message. -/
theorem C3_through_holes_bypass (v : Bool) (d a w hd hm t : ℚ) :
    validateCountersink v true d a w hd hm t ≠
      Except.error "max hole depth is not deep enough for countrsunk" ∧
    (v = true → 0 < d → 0 ≤ a → a ≤ 180 → 0 < a →
      d < requiredCounterSunkDepth w hd t →
      validateCountersink v true d a w hd hm t =
        Except.error "countersunk is too shallow for this angle") := by
  constructor
  · unfold validateCountersink
    split
    · rw [if_neg (by simp)]
      split
      · intro hc
        exact absurd (Except.error.inj hc) (by decide)
      · split
        · split
          · exact fun hc => Except.noConfusion hc
          · intro hc
            exact absurd (Except.error.inj hc) (by decide)
        · exact fun hc => Except.noConfusion hc
    · exact fun hc => Except.noConfusion hc
  · intro hv h0 ha1 ha2 ha3 hreq
    subst hv
    unfold validateCountersink
    rw [if_pos ⟨rfl, h0⟩, if_neg (by simp), if_neg (by simp [ha1, ha2]),
      if_pos ha3, if_neg (not_le.mpr hreq)]

/-- C3 witness: instantiating the bypass theorem at the counterexample
configuration: no max-hole-depth failure, but a depth-insufficiency failure. -/
theorem C3_witness :
    validateCountersink true true (7 / 2) 90 107 7 10 1 ≠
      Except.error "max hole depth is not deep enough for countrsunk" ∧
    validateCountersink true true (7 / 2) 90 107 7 10 1 =
      Except.error "countersunk is too shallow for this angle" :=
  ⟨(C3_through_holes_bypass true (7 / 2) 90 107 7 10 1).1,
   (C3_through_holes_bypass true (7 / 2) 90 107 7 10 1).2 rfl (by norm_num)
     (by norm_num) (by norm_num) (by norm_num)
     (by norm_num [requiredCounterSunkDepth])⟩

/-- C10: in single-pass mode the zero-point selection reads the first element
of the filtered hole set unconditionally: if the edge filter leaves no holes
the run aborts with Python's index error — caught only by the top-level
handler, so no geometry is emitted (the result is an error carrying no
output) — and with a non-empty filtered set the selection succeeds and
returns its head, so the selector is total exactly under the non-emptiness
precondition. -/
theorem C10_zero_selector_totality (bXs bYs : Bool)
    (bx byd shx shy sx sy ko hd : ℚ) (hs : List Hole) :
    (filteredHoles bXs bYs bx byd shx shy sx sy ko hd hs = [] →
      runSinglePass bXs bYs bx byd shx shy sx sy ko hd hs =
        Except.error "list index out of range") ∧
    (∀ c rest, filteredHoles bXs bYs bx byd shx shy sx sy ko hd hs = c :: rest →
      runSinglePass bXs bYs bx byd shx shy sx sy ko hd hs =
        Except.ok (c, c :: rest)) := by
  constructor
  · intro hE
    unfold runSinglePass
    rw [hE]
  · intro c rest hE
    unfold runSinglePass
    rw [hE]

/-- C10 witness: with a single bed hole at (0, 0), both symmetries on, a
100×100 sheet and effective keep-out 9, every expanded hole fails the edge
filter and the run ends in the index error. -/
theorem C10_witness :
    runSinglePass true true 360 300 0 0 100 100 5 8 [⟨0, 0, false⟩] =
      Except.error "list index out of range" :=
  (C10_zero_selector_totality true true 360 300 0 0 100 100 5 8 [⟨0, 0, false⟩]).1
    (by norm_num [filteredHoles, edgeFilter, frameTransform, remove_duplicate_holes,
      removeDupAux, symmetryExpand, mirrorX, mirrorY, realKeepout,
      spoilboardHoleCheck, Hole.mk.injEq, List.filter])
